import Mathlib

/-
  Verification of the round/session logic of the Insect Song Learning Game
  (src/game.js), as a shallow embedding in Lean 4.

  Conventions of the embedding:
  - JS strings are Lean String values; a missing (undefined) string field is
    modelled as the empty string, which is exactly the set of falsy string
    values in the JS code.
  - `Math.random()` is modelled as a stream of keys `keys : Nat -> K` over a
    linearly ordered type `K`; the i-th call of `Math.random()` inside one
    `shuffle` invocation yields `keys i`.  `Array.prototype.sort` with the
    comparator `(a, b) => a.r - b.r` is a stable sort ascending by the key,
    modelled by the stable insertion sort `keySort` on the decorated list.
  - The mutable module-level variables of game.js form the `GameState`
    record; each JS function becomes a state transformer.
  - DOM reads/writes are dropped, except for the end overlay visibility,
    which is the observable "game complete" signal of the session and is
    kept as the Boolean field `endOverlayVisible`.
-/

namespace InsectGame

/-- game.js line 19: `const TOTAL_ROUNDS = 5;` -/
def TOTAL_ROUNDS : Nat := 5

/-- game.js lines 20-24: mode string constants. -/
def MODES_SPECTRO : String := "spectrogram"

def MODES_IMAGE : String := "image"

def MODES_FACTS : String := "facts"

/--
A stable ascending sort step: `keyInsert` places `a` behind every element
that is strictly below it, so elements comparing equal keep their original
order.  This models `Array.prototype.sort`, which is guaranteed stable,
with an ascending comparator; `lt x y` stands for "the comparator orders
`x` strictly before `y`".
-/
def keyInsert {α : Type} (lt : α → α → Bool) (a : α) : List α → List α
  | [] => [a]
  | b :: bs => if lt b a then b :: keyInsert lt a bs else a :: b :: bs

/-- Stable insertion sort driven by `keyInsert`. -/
def keySort {α : Type} (lt : α → α → Bool) : List α → List α
  | [] => []
  | a :: as => keyInsert lt a (keySort lt as)

/--
game.js lines 123-128:
```
function shuffle(arr) {
  return arr
    .map((v) => ({ v, r: Math.random() }))
    .sort((a, b) => a.r - b.r)
    .map((x) => x.v);
}
```
Each element is paired with the next random key, the pairs are sorted
stably in ascending key order, and the keys are dropped again.
-/
def shuffle {α : Type} {K : Type} [LinearOrder K] (keys : Nat → K) (arr : List α) : List α :=
  (keySort (fun a b => decide (a.2 < b.2))
      (arr.zip ((List.range arr.length).map keys))).map Prod.fst

/--
One record of `window.SONGS_DATA` (species-data.js); only the fields read
by the game logic under verification are kept.  A field the JS code may
find `undefined` is modelled as the empty string (both are falsy in the
code).
-/
structure Song where
  commonName : String
  species : String
  region : String
  fact : String
deriving DecidableEq, Repr

/--
game.js lines 134-138:
```
function getRegionPool() {
  // If currentRegion is null => all songs
  if (!currentRegion) return SONGS.slice();
  return SONGS.filter((s) => s.region === currentRegion);
}
```
`currentRegion = null` is `none`; the songs catalog is a parameter.
-/
def getRegionPool (songs : List Song) (currentRegion : Option String) : List Song :=
  match currentRegion with
  | none => songs
  | some r => songs.filter (fun s => s.region = r)

/--
The mutable session state of game.js (lines 44-56), restricted to the
variables the verified logic reads or writes, plus the visibility of the
end-of-game overlay (the observable game-complete signal).
-/
structure GameState where
  sessionSongs : List Song
  sessionIndex : Nat
  currentSong : Option Song
  roundsAnswered : Nat
  scoreCorrect : Nat
  hasAnswered : Bool
  hadWrongGuess : Bool
  endOverlayVisible : Bool
deriving DecidableEq, Repr

/-- The initial values of the module-level variables in game.js. -/
def initState : GameState :=
  { sessionSongs := []
    sessionIndex := 0
    currentSong := none
    roundsAnswered := 0
    scoreCorrect := 0
    hasAnswered := false
    hadWrongGuess := false
    endOverlayVisible := false }

/--
game.js lines 561-591 (`renderRound`), state-relevant part:
```
if (!sessionSongs.length) { console.error(...); return; }
currentSong = sessionSongs[sessionIndex];
if (!currentSong) { console.error(...); return; }
hasAnswered = false;
hadWrongGuess = false;
...
```
Note: `currentSong` is assigned before the null check, so an out-of-range
index leaves `currentSong` undefined without resetting the round flags.
-/
def renderRound (s : GameState) : GameState :=
  if s.sessionSongs.isEmpty then s
  else
    match s.sessionSongs.get? s.sessionIndex with
    | none => { s with currentSong := none }
    | some song =>
      { s with currentSong := some song, hasAnswered := false, hadWrongGuess := false }

/--
game.js lines 710-797 (`handleAnswer`), state-relevant part:
```
if (hasAnswered || !currentSong || !songObj) return;
const correct = songObj.commonName === currentSong.commonName;
if (!correct) {
  if (!hadWrongGuess) { hadWrongGuess = true; ... }
  return;
}
hasAnswered = true;
roundsAnswered++;
const firstTry = !hadWrongGuess;
if (firstTry) { scoreCorrect++; playDing(); }
...
if (roundsAnswered >= TOTAL_ROUNDS) { ...; showEndOverlay(); }
else if (nextBtnEl) { nextBtnEl.disabled = false; }
```
-/
def handleAnswer (songObj : Option Song) (s : GameState) : GameState :=
  if s.hasAnswered then s
  else
    match s.currentSong, songObj with
    | none, _ => s
    | some _, none => s
    | some cur, some obj =>
      if obj.commonName = cur.commonName then
        let s1 := { s with hasAnswered := true, roundsAnswered := s.roundsAnswered + 1 }
        let firstTry := ! s.hadWrongGuess
        let s2 := if firstTry then { s1 with scoreCorrect := s1.scoreCorrect + 1 } else s1
        if TOTAL_ROUNDS ≤ s2.roundsAnswered then { s2 with endOverlayVisible := true } else s2
      else if ! s.hadWrongGuess then { s with hadWrongGuess := true } else s

/--
game.js lines 799-806:
```
function goToNextRound() {
  if (!hasAnswered) return;
  if (roundsAnswered >= TOTAL_ROUNDS) return;
  sessionIndex++;
  if (sessionIndex < sessionSongs.length) {
    renderRound();
  }
}
```
-/
def goToNextRound (s : GameState) : GameState :=
  if ! s.hasAnswered then s
  else if TOTAL_ROUNDS ≤ s.roundsAnswered then s
  else
    let s1 := { s with sessionIndex := s.sessionIndex + 1 }
    if s1.sessionIndex < s1.sessionSongs.length then renderRound s1 else s1

/--
game.js lines 812-844 (`startNewGame`), state-relevant part:
```
const pool = getRegionPool();
if (!pool.length) { console.error(...); return; }
sessionSongs = shuffle(pool).slice(0, TOTAL_ROUNDS);
sessionIndex = 0;
roundsAnswered = 0;
scoreCorrect = 0;
hasAnswered = false;
hadWrongGuess = false;
...
renderRound();
```
The end overlay is not touched here (the play-again button hides it before
calling `startNewGame`).
-/
def startNewGame (keys : Nat → Nat) (songs : List Song) (currentRegion : Option String)
    (s : GameState) : GameState :=
  let pool := getRegionPool songs currentRegion
  if pool.isEmpty then s
  else
    renderRound
      { s with
        sessionSongs := (shuffle keys pool).take TOTAL_ROUNDS
        sessionIndex := 0
        roundsAnswered := 0
        scoreCorrect := 0
        hasAnswered := false
        hadWrongGuess := false }

/-- game.js lines 705-708 (`hideEndOverlay`), state-relevant part. -/
def hideEndOverlay (s : GameState) : GameState :=
  { s with endOverlayVisible := false }

/--
game.js lines 520-522, the name pool used by `buildChoices`:
```
const pool = getRegionPool().map((s) => s.commonName).filter(Boolean);
```
-/
def choicePool (songs : List Song) (region : Option String) : List String :=
  ((getRegionPool songs region).map (fun s => s.commonName)).filter (fun n => n ≠ "")

/--
game.js lines 519-526:
```
function buildChoices(correctName) {
  const pool = getRegionPool().map((s) => s.commonName).filter(Boolean);
  const others = pool.filter((n) => n !== correctName);
  const wrong = shuffle(others).slice(0, 3);
  return shuffle([correctName, ...wrong]);
}
```
The two `shuffle` calls consume independent random keys `k1` and `k2`.
-/
def buildChoices (k1 k2 : Nat → Nat) (songs : List Song) (region : Option String)
    (correctName : String) : List String :=
  let pool := choicePool songs region
  let others := pool.filter (fun n => n ≠ correctName)
  let wrong := (shuffle k1 others).take 3
  shuffle k2 (correctName :: wrong)

/--
game.js lines 614-665 (`endMessage`): a pure lookup of the end-of-game
message from the final score and the mode string.  Each `switch` has
`case 5:` falling through to `default:`, modelled by the catch-all arm.
-/
def endMessage (score : Nat) (mode : String) : String :=
  if mode = MODES_SPECTRO then
    match score with
    | 0 => "You need to clean your ears. Play again..."
    | 1 => "You need to learn to listen. Play again..."
    | 2 => "Almost half way there!"
    | 3 => "Pretty good! Your chance of finding a mate is more than 50%!"
    | 4 => "Impressive ears!"
    | _ => "Master of insect sounds! You must be an insect sound biologist!"
  else if mode = MODES_IMAGE then
    match score with
    | 0 => "You need new glasses. Play again..."
    | 1 => "You need to look more closely. Play again..."
    | 2 => "Almost half way there! Keep sharpening your eyes."
    | 3 => "Pretty good! Your field ID skills are waking up."
    | 4 => "Impressive eye for insects!"
    | _ => "Master of insect identification! Your field guide game is strong!"
  else if mode = MODES_FACTS then
    match score with
    | 0 => "You need to hit the books. Play again..."
    | 1 => "You need to brush up your insect trivia."
    | 2 => "Almost half way there! These facts are starting to stick."
    | 3 => "Pretty good! Your insect natural history memory is solid."
    | 4 => "Impressive knowledge! You\x27re almost a walking field guide."
    | _ => "Master of insect facts! You must be an insect natural history expert!"
  else "Nice work!"

/-- The fixed table of the 18 end messages (3 modes times 6 score values). -/
def endMessageTable : List String :=
  [ "You need to clean your ears. Play again..."
  , "You need to learn to listen. Play again..."
  , "Almost half way there!"
  , "Pretty good! Your chance of finding a mate is more than 50%!"
  , "Impressive ears!"
  , "Master of insect sounds! You must be an insect sound biologist!"
  , "You need new glasses. Play again..."
  , "You need to look more closely. Play again..."
  , "Almost half way there! Keep sharpening your eyes."
  , "Pretty good! Your field ID skills are waking up."
  , "Impressive eye for insects!"
  , "Master of insect identification! Your field guide game is strong!"
  , "You need to hit the books. Play again..."
  , "You need to brush up your insect trivia."
  , "Almost half way there! These facts are starting to stick."
  , "Pretty good! Your insect natural history memory is solid."
  , "Impressive knowledge! You\x27re almost a walking field guide."
  , "Master of insect facts! You must be an insect natural history expert!" ]

/-- The global dash-to-space replacement of game.js line 158: every dash
becomes a space (a one-for-one character substitution). -/
def dashToSpace (s : String) : String :=
  String.mk (s.toList.map (fun c => if c = '-' then ' ' else c))

/-- The whitespace split of game.js lines 159 and 166: the parts of the
string between whitespace characters (every caller keeps only parts longer
than 2 characters, so empty parts are irrelevant). -/
def splitWs (s : String) : List String :=
  (s.toList.splitOnP (fun c => c.isWhitespace)).map String.mk

/-- `.toLowerCase()` on the ASCII data handled by the game. -/
def lowerStr (s : String) : String :=
  String.mk (s.toList.map Char.toLower)

/-- `String.prototype.includes(pat)`: some contiguous segment of `s`
equals `pat`. -/
def hasSub (pat : String) (s : String) : Bool :=
  (List.range (s.toList.length + 1)).any
    (fun i => decide (((s.toList.drop i).take pat.toList.length) = pat.toList))

/--
`[...new Set(targets...)]` of game.js lines 193-199: JS `Set` iteration
follows insertion order, so duplicates after the first occurrence are
dropped.  (`seen` accumulates the values already emitted.)
-/
def dedupFirstAux : List String → List String → List String
  | _, [] => []
  | seen, x :: xs =>
    if x ∈ seen then dedupFirstAux seen xs else x :: dedupFirstAux (x :: seen) xs

def dedupFirst (l : List String) : List String :=
  dedupFirstAux [] l

/--
game.js lines 152-191: the list of words and phrases to redact, in push
order (common-name targets, species-name parts, the group nouns, then the
periodical-cicada special cases).
-/
def redactTargets (song : Song) : List String :=
  let fromCommon : List String :=
    if song.commonName ≠ "" then
      let full := song.commonName
      let dashFree := dashToSpace full
      [full, dashFree] ++ (splitWs dashFree).filter (fun part => 2 < part.length)
    else []
  let fromSpecies : List String :=
    if song.species ≠ "" then
      (splitWs song.species).filter (fun part => 2 < part.length)
    else []
  let groups : List String :=
    [ "cricket", "crickets", "cicada", "cicadas", "grasshopper",
      "grasshoppers", "katydid", "katydids", "conehead", "coneheads" ]
  let commonLower := lowerStr song.commonName
  let speciesLower := lowerStr song.species
  let special : List String :=
    if hasSub "13-year" commonLower || hasSub "magicicada" speciesLower then
      [ "13", "13-year", "13 year", "periodical cicadas", "periodical cicada",
        "periodical" ]
    else []
  fromCommon ++ fromSpecies ++ groups ++ special

/--
One step of the alternation regex built on game.js line 202: at the
current position the alternatives are tried in listed order (JS
alternation is first-match, not longest-match) with the `i` flag
(case-insensitive); a hit reports the length of the consumed text.  Empty
alternatives never arise (the targets are filtered through `Boolean`) and
are rejected here so that every hit consumes at least one character.
-/
def matchAt (alts : List (List Char)) (cs : List Char) : Option Nat :=
  alts.findSome? (fun t =>
    if 0 < t.length ∧ t.map Char.toLower = (cs.take t.length).map Char.toLower
    then some t.length else none)

/--
`text.replace(re, (m) => "•".repeat(m.length))` with the global flag
(game.js line 203): scan left to right; on a hit of length `n`, emit `n`
bullet characters and resume after the match, otherwise emit the current
character and advance by one.  `fuel` bounds the number of scan steps;
with `fuel ≥ cs.length` it never runs out because every step consumes at
least one character.
-/
def replaceGo (alts : List (List Char)) : Nat → List Char → List Char
  | _, [] => []
  | 0, cs => cs
  | fuel + 1, c :: cs =>
    match matchAt alts (c :: cs) with
    | some n => List.replicate n '•' ++ replaceGo alts fuel (List.drop (n - 1) cs)
    | none => c :: replaceGo alts fuel cs

def replaceMatches (alts : List (List Char)) (cs : List Char) : List Char :=
  replaceGo alts cs.length cs

/--
game.js lines 149-204 (`redactFact`): the redaction targets are collected,
regex-escaped, deduplicated and joined into one global case-insensitive
alternation, and every match in the fact text is replaced by a run of
bullets of the same length.  Regex-escaping a literal and then reading the
escaped text back as a regex is the identity on the matched language, so
the escaping step is modelled as the literal strings themselves.
-/
def redactFact (song : Option Song) : String :=
  match song with
  | none => ""
  | some sg =>
    if sg.fact = "" then ""
    else
      let text := sg.fact
      let escaped := dedupFirst ((redactTargets sg).filter (fun t => t ≠ ""))
      if escaped = [] then text
      else String.mk (replaceMatches (escaped.map String.toList) text.toList)

/-- The user-driven events that mutate the session state in game.js:
starting a game (play button, play-again, mode or region change), clicking
an answer button, clicking the next button, and dismissing the end
overlay. -/
inductive Event where
  | start (keys : Nat → Nat) (region : Option String)
  | answer (songObj : Option Song)
  | next
  | hideEnd

/-- The state transformer of one event. -/
def step (songs : List Song) (e : Event) (s : GameState) : GameState :=
  match e with
  | Event.start keys region => startNewGame keys songs region s
  | Event.answer songObj => handleAnswer songObj s
  | Event.next => goToNextRound s
  | Event.hideEnd => hideEndOverlay s

/-- The session states reachable from the initial module state through any
sequence of events, for a fixed catalog. -/
inductive Reachable (songs : List Song) : GameState → Prop
  | init : Reachable songs initState
  | step (e : Event) (s : GameState) : Reachable songs s → Reachable songs (step songs e s)

/-- The session invariant: the score never exceeds the number of answered
rounds, at most `TOTAL_ROUNDS` rounds are answered, and once the final
round is answered the round stays resolved. -/
def Inv (s : GameState) : Prop :=
  s.scoreCorrect ≤ s.roundsAnswered ∧ s.roundsAnswered ≤ TOTAL_ROUNDS ∧
    (TOTAL_ROUNDS ≤ s.roundsAnswered → s.hasAnswered = true)

/-- The game-complete state of the session: all five rounds answered.
This is exactly the condition under which game.js shows the end overlay
and under which `goToNextRound` refuses to advance. -/
def GameComplete (s : GameState) : Prop :=
  TOTAL_ROUNDS ≤ s.roundsAnswered

/-- An answer submission that `handleAnswer` accepts as resolving the
current round: the round is still open, a current song and a clicked song
exist, and the clicked common name equals the current common name. -/
def answerAccepted (songObj : Option Song) (s : GameState) : Prop :=
  s.hasAnswered = false ∧
    ∃ cur obj, s.currentSong = some cur ∧ songObj = some obj ∧
      obj.commonName = cur.commonName

/-- A small concrete catalog used to exercise the theorems on closed
inputs (four eastern species, one western). -/
def songA : Song :=
  { commonName := "Meadow Cricket", species := "Gryllus pratensis",
    region := "East", fact := "The meadow cricket sings from tall grass." }

def songB : Song :=
  { commonName := "Dusk Cicada", species := "Tibicen umbra",
    region := "East", fact := "A dusk cicada calls in the evening." }

def songC : Song :=
  { commonName := "Stone Katydid", species := "Pterophylla saxum",
    region := "East", fact := "Stone katydids rasp from oak canopies." }

def songD : Song :=
  { commonName := "River Conehead", species := "Neoconocephalus fluvius",
    region := "East", fact := "River coneheads buzz near water." }

def songE : Song :=
  { commonName := "Pine Grasshopper", species := "Melanoplus pinus",
    region := "West", fact := "Pine grasshoppers crackle in flight." }

def demoSongs : List Song := [songA, songB, songC, songD, songE]

/-- A mid-round state right after a first-try correct answer on a
one-song session; used as a closed input for the theorems. -/
def demoAnsweredState : GameState :=
  { sessionSongs := [songA]
    sessionIndex := 0
    currentSong := some songA
    roundsAnswered := 1
    scoreCorrect := 1
    hasAnswered := true
    hadWrongGuess := false
    endOverlayVisible := false }

/-- The states of the stalled one-song session used for claim C7: start
with the single western species, answer it, advance. -/
def stallS1 : GameState := startNewGame (fun _ => 0) demoSongs (some "West") initState

def stallS2 : GameState := handleAnswer (some songE) stallS1

def stallS3 : GameState := goToNextRound stallS2

-- --------------------------------------------------------------------------
-- Theorems
-- --------------------------------------------------------------------------

theorem keyInsert_perm {α : Type} (lt : α → α → Bool) (a : α) (l : List α) :
    (keyInsert lt a l).Perm (a :: l) := by
  induction l with
  | nil => rfl
  | cons b bs ih =>
    by_cases h : lt b a = true
    · have step : keyInsert lt a (b :: bs) = b :: keyInsert lt a bs := by
        simp [keyInsert, h]
      rw [step]
      exact (ih.cons b).trans (List.Perm.swap a b bs)
    · simp only [Bool.not_eq_true] at h
      simp [keyInsert, h]

theorem keySort_perm {α : Type} (lt : α → α → Bool) (l : List α) :
    (keySort lt l).Perm l := by
  induction l with
  | nil => rfl
  | cons a as ih =>
    show (keyInsert lt a (keySort lt as)).Perm (a :: as)
    exact (keyInsert_perm lt a (keySort lt as)).trans (ih.cons a)

/-- If nothing in `l` compares strictly below `a`, insertion keeps `a` at
the head: ties never move an element forward. -/
theorem keyInsert_of_not_lt {α : Type} (lt : α → α → Bool) (a : α) (l : List α)
    (h : ∀ b ∈ l, lt b a = false) : keyInsert lt a l = a :: l := by
  cases l with
  | nil => rfl
  | cons b bs => simp [keyInsert, h b (List.mem_cons_self b bs)]

/-- A list on which the comparator never strictly orders any pair is left
unchanged by the stable sort. -/
theorem keySort_of_all_ties {α : Type} (lt : α → α → Bool) (l : List α)
    (h : ∀ a ∈ l, ∀ b ∈ l, lt a b = false) : keySort lt l = l := by
  induction l with
  | nil => rfl
  | cons a as ih =>
    have htail : keySort lt as = as := by
      apply ih
      intro x hx y hy
      exact h x (List.mem_cons_of_mem a hx) y (List.mem_cons_of_mem a hy)
    show keyInsert lt a (keySort lt as) = a :: as
    rw [htail]
    apply keyInsert_of_not_lt
    intro b hb
    exact h b (List.mem_cons_of_mem a hb) a (List.mem_cons_self a as)

theorem shuffle_perm {α K : Type} [LinearOrder K] (keys : Nat → K) (arr : List α) :
    (shuffle keys arr).Perm arr := by
  have h := keySort_perm (fun a b : α × K => decide (a.2 < b.2))
      (arr.zip ((List.range arr.length).map keys))
  have h2 := h.map Prod.fst
  rwa [List.map_fst_zip] at h2
  simp

theorem shuffle_length {α K : Type} [LinearOrder K] (keys : Nat → K) (arr : List α) :
    (shuffle keys arr).length = arr.length :=
  (shuffle_perm keys arr).length_eq

theorem shuffle_mem {α K : Type} [LinearOrder K] (keys : Nat → K) (arr : List α) {x : α}
    (hx : x ∈ shuffle keys arr) : x ∈ arr :=
  (shuffle_perm keys arr).mem_iff.mp hx

theorem shuffle_count {α K : Type} [LinearOrder K] [DecidableEq α]
    (keys : Nat → K) (arr : List α) (x : α) :
    (shuffle keys arr).count x = arr.count x :=
  (shuffle_perm keys arr).count_eq x

theorem shuffle_nodup {α K : Type} [LinearOrder K] (keys : Nat → K) (arr : List α)
    (h : arr.Nodup) : (shuffle keys arr).Nodup :=
  (shuffle_perm keys arr).nodup_iff.mpr h

/-- With all keys equal (a tie at every comparison), the stable sort keeps
the original order, so `shuffle` returns its input unchanged. -/
theorem shuffle_const_keys {α K : Type} [LinearOrder K] (k : K) (arr : List α) :
    shuffle (fun _ => k) arr = arr := by
  unfold shuffle
  rw [keySort_of_all_ties, List.map_fst_zip]
  · simp
  · intro a ha b hb
    obtain ⟨a1, a2⟩ := a
    obtain ⟨b1, b2⟩ := b
    have ha2 : a2 ∈ (List.range arr.length).map (fun _ => k) := (List.of_mem_zip ha).2
    have hb2 : b2 ∈ (List.range arr.length).map (fun _ => k) := (List.of_mem_zip hb).2
    simp only [List.mem_map] at ha2 hb2
    obtain ⟨_, _, ha2⟩ := ha2
    obtain ⟨_, _, hb2⟩ := hb2
    simp [← ha2, ← hb2]

-- Characterizations of the state transformers, used throughout.

theorem renderRound_fields (s : GameState) :
    (renderRound s).roundsAnswered = s.roundsAnswered ∧
    (renderRound s).scoreCorrect = s.scoreCorrect ∧
    (renderRound s).sessionSongs = s.sessionSongs ∧
    (renderRound s).sessionIndex = s.sessionIndex ∧
    (renderRound s).endOverlayVisible = s.endOverlayVisible := by
  unfold renderRound
  split
  · simp
  · split <;> simp

theorem handleAnswer_resolved (songObj : Option Song) (s : GameState)
    (ha : s.hasAnswered = true) : handleAnswer songObj s = s := by
  simp [handleAnswer, ha]

theorem handleAnswer_noCurrent (songObj : Option Song) (s : GameState)
    (h : s.currentSong = none) : handleAnswer songObj s = s := by
  unfold handleAnswer
  split
  · rfl
  · rw [h]

theorem handleAnswer_noObj (s : GameState) : handleAnswer none s = s := by
  unfold handleAnswer
  split
  · rfl
  · cases s.currentSong <;> rfl

theorem handleAnswer_correct_eq (s : GameState) (cur obj : Song)
    (ha : s.hasAnswered = false) (hcur : s.currentSong = some cur)
    (hname : obj.commonName = cur.commonName) :
    handleAnswer (some obj) s =
      { s with
        hasAnswered := true
        roundsAnswered := s.roundsAnswered + 1
        scoreCorrect := if s.hadWrongGuess then s.scoreCorrect else s.scoreCorrect + 1
        endOverlayVisible :=
          if TOTAL_ROUNDS ≤ s.roundsAnswered + 1 then true else s.endOverlayVisible } := by
  by_cases hw : s.hadWrongGuess <;> by_cases hr : TOTAL_ROUNDS ≤ s.roundsAnswered + 1 <;>
    simp [handleAnswer, ha, hcur, hname, hw, hr]

theorem handleAnswer_wrong_eq (s : GameState) (cur obj : Song)
    (ha : s.hasAnswered = false) (hcur : s.currentSong = some cur)
    (hname : obj.commonName ≠ cur.commonName) :
    handleAnswer (some obj) s =
      if s.hadWrongGuess then s else { s with hadWrongGuess := true } := by
  by_cases hw : s.hadWrongGuess <;> simp [handleAnswer, ha, hcur, hname, hw]

theorem goToNextRound_open (s : GameState) (h : s.hasAnswered = false) :
    goToNextRound s = s := by
  simp [goToNextRound, h]

theorem goToNextRound_done (s : GameState) (h : TOTAL_ROUNDS ≤ s.roundsAnswered) :
    goToNextRound s = s := by
  unfold goToNextRound
  split
  · rfl
  · simp [h]

theorem goToNextRound_eq (s : GameState) (ha : s.hasAnswered = true)
    (hr : s.roundsAnswered < TOTAL_ROUNDS) :
    goToNextRound s =
      if s.sessionIndex + 1 < s.sessionSongs.length
      then renderRound { s with sessionIndex := s.sessionIndex + 1 }
      else { s with sessionIndex := s.sessionIndex + 1 } := by
  simp [goToNextRound, ha, Nat.not_le.mpr hr]

theorem startNewGame_emptyPool (keys : Nat → Nat) (songs : List Song)
    (region : Option String) (s : GameState)
    (h : (getRegionPool songs region).isEmpty) :
    startNewGame keys songs region s = s := by
  simp [startNewGame, h]

theorem startNewGame_eq (keys : Nat → Nat) (songs : List Song)
    (region : Option String) (s : GameState)
    (h : ¬ (getRegionPool songs region).isEmpty) :
    startNewGame keys songs region s =
      renderRound
        { s with
          sessionSongs := (shuffle keys (getRegionPool songs region)).take TOTAL_ROUNDS
          sessionIndex := 0
          roundsAnswered := 0
          scoreCorrect := 0
          hasAnswered := false
          hadWrongGuess := false } := by
  simp [startNewGame, h]

-- The session invariant is established initially and preserved by every
-- event.

theorem inv_initState : Inv initState := by
  refine ⟨Nat.le_refl 0, ?_, ?_⟩ <;> simp [initState, TOTAL_ROUNDS]

theorem inv_handleAnswer (songObj : Option Song) (s : GameState) (h : Inv s) :
    Inv (handleAnswer songObj s) := by
  obtain ⟨h1, h2, h3⟩ := h
  by_cases ha : s.hasAnswered = true
  · rw [handleAnswer_resolved songObj s ha]
    exact ⟨h1, h2, h3⟩
  · have ha' : s.hasAnswered = false := by simpa using ha
    have hr : s.roundsAnswered < TOTAL_ROUNDS := by
      rcases Nat.lt_or_ge s.roundsAnswered TOTAL_ROUNDS with hlt | hge
      · exact hlt
      · exact absurd (h3 hge) ha
    cases songObj with
    | none =>
      rw [handleAnswer_noObj]
      exact ⟨h1, h2, h3⟩
    | some obj =>
      cases hcur : s.currentSong with
      | none =>
        rw [handleAnswer_noCurrent _ _ hcur]
        exact ⟨h1, h2, h3⟩
      | some cur =>
        by_cases hname : obj.commonName = cur.commonName
        · rw [handleAnswer_correct_eq s cur obj ha' hcur hname]
          refine ⟨?_, ?_, ?_⟩
          · show (if s.hadWrongGuess then s.scoreCorrect else s.scoreCorrect + 1)
              ≤ s.roundsAnswered + 1
            split <;> omega
          · show s.roundsAnswered + 1 ≤ TOTAL_ROUNDS
            omega
          · intro _
            rfl
        · rw [handleAnswer_wrong_eq s cur obj ha' hcur hname]
          split
          · exact ⟨h1, h2, h3⟩
          · exact ⟨h1, h2, h3⟩

theorem inv_goToNextRound (s : GameState) (h : Inv s) : Inv (goToNextRound s) := by
  obtain ⟨h1, h2, h3⟩ := h
  by_cases ha : s.hasAnswered = true
  · by_cases hrc : TOTAL_ROUNDS ≤ s.roundsAnswered
    · rw [goToNextRound_done s hrc]
      exact ⟨h1, h2, h3⟩
    · rw [goToNextRound_eq s ha (Nat.lt_of_not_le hrc)]
      split
      · obtain ⟨f1, f2, _, _, _⟩ :=
          renderRound_fields { s with sessionIndex := s.sessionIndex + 1 }
        refine ⟨?_, ?_, ?_⟩
        · rw [f1, f2]; exact h1
        · rw [f1]; exact h2
        · intro hge
          rw [f1] at hge
          exact absurd hge hrc
      · exact ⟨h1, h2, h3⟩
  · rw [goToNextRound_open s (by simpa using ha)]
    exact ⟨h1, h2, h3⟩

theorem inv_startNewGame (keys : Nat → Nat) (songs : List Song) (region : Option String)
    (s : GameState) (h : Inv s) : Inv (startNewGame keys songs region s) := by
  by_cases hp : (getRegionPool songs region).isEmpty
  · rw [startNewGame_emptyPool keys songs region s hp]
    exact h
  · rw [startNewGame_eq keys songs region s hp]
    obtain ⟨f1, f2, _, _, _⟩ := renderRound_fields
      { s with
        sessionSongs := (shuffle keys (getRegionPool songs region)).take TOTAL_ROUNDS
        sessionIndex := 0
        roundsAnswered := 0
        scoreCorrect := 0
        hasAnswered := false
        hadWrongGuess := false }
    refine ⟨?_, ?_, ?_⟩
    · rw [f1, f2]
    · rw [f1]
      simp [TOTAL_ROUNDS]
    · intro hge
      rw [f1] at hge
      simp [TOTAL_ROUNDS] at hge

theorem inv_step (songs : List Song) (e : Event) (s : GameState) (h : Inv s) :
    Inv (step songs e s) := by
  cases e with
  | start keys region => exact inv_startNewGame keys songs region s h
  | answer songObj => exact inv_handleAnswer songObj s h
  | next => exact inv_goToNextRound s h
  | hideEnd => exact h

theorem reachable_inv {songs : List Song} {s : GameState}
    (h : Reachable songs s) : Inv s := by
  induction h with
  | init => exact inv_initState
  | step e s _ ih => exact inv_step songs e s ih

/-- A hit of the alternation consumes at least one character and at most
the rest of the text. -/
theorem matchAt_bounds (alts : List (List Char)) (cs : List Char) (n : Nat)
    (h : matchAt alts cs = some n) : 1 ≤ n ∧ n ≤ cs.length := by
  induction alts with
  | nil => simp [matchAt, List.findSome?] at h
  | cons t ts ih =>
    rw [matchAt, List.findSome?_cons] at h
    by_cases hc : 0 < t.length ∧ t.map Char.toLower = (cs.take t.length).map Char.toLower
    · simp only [if_pos hc, Option.some.injEq] at h
      subst h
      refine ⟨hc.1, ?_⟩
      have hlen := congrArg List.length hc.2
      simp only [List.length_map, List.length_take] at hlen
      omega
    · simp only [if_neg hc] at h
      exact ih h

/-- The scanning replacement is length-preserving (each match of length
`n` becomes `n` bullets) whenever the fuel covers the text. -/
theorem replaceGo_length (alts : List (List Char)) (fuel : Nat) (cs : List Char)
    (h : cs.length ≤ fuel) : (replaceGo alts fuel cs).length = cs.length := by
  induction fuel generalizing cs with
  | zero =>
    cases cs with
    | nil => rfl
    | cons c cs => simp at h
  | succ fuel ih =>
    cases cs with
    | nil => rfl
    | cons c cs =>
      rw [replaceGo]
      cases hm : matchAt alts (c :: cs) with
      | none =>
        have hcs : cs.length ≤ fuel := by simpa using Nat.le_of_succ_le_succ h
        simp [ih cs hcs]
      | some n =>
        obtain ⟨h1, h2⟩ := matchAt_bounds alts (c :: cs) n hm
        have hd : (List.drop (n - 1) cs).length ≤ fuel := by
          simp only [List.length_drop]
          simp only [List.length_cons] at h
          omega
        simp only [List.length_append, List.length_replicate, ih _ hd,
          List.length_drop, List.length_cons]
        simp only [List.length_cons] at h2
        omega

theorem replaceMatches_length (alts : List (List Char)) (cs : List Char) :
    (replaceMatches alts cs).length = cs.length :=
  replaceGo_length alts cs.length cs (Nat.le_refl _)

-- --------------------------------------------------------------------------
-- Claim C1
-- --------------------------------------------------------------------------

/-- C1 (counterexample): with the non-empty demo catalog and the unknown
region "Atlantis", `startNewGame` does NOT fall back to the full catalog:
the region filter is empty, the call leaves the session untouched, and the
resulting session pool has size 0 (not ≥ 1). -/
theorem startNewGame_unknown_region_cex :
    demoSongs ≠ [] ∧
    getRegionPool demoSongs (some "Atlantis") = [] ∧
    startNewGame (fun _ => 0) demoSongs (some "Atlantis") initState = initState ∧
    (startNewGame (fun _ => 0) demoSongs (some "Atlantis") initState).sessionSongs.length
      = 0 := by
  refine ⟨by decide, by decide, by decide, by decide⟩

/-- C1 (amended): when the region filter yields zero matches,
`startNewGame` is a silent no-op (no error is raised, but no fallback to
the unfiltered catalog happens and no game starts); when the filtered pool
is non-empty — in particular for the all-regions default — the session
pool has size `min TOTAL_ROUNDS pool.length ≥ 1`. -/
theorem startNewGame_no_fallback (keys : Nat → Nat) (songs : List Song)
    (region : Option String) (s : GameState) :
    (getRegionPool songs region = [] → startNewGame keys songs region s = s) ∧
    (getRegionPool songs region ≠ [] →
      1 ≤ (startNewGame keys songs region s).sessionSongs.length ∧
      (startNewGame keys songs region s).sessionSongs.length
        = min TOTAL_ROUNDS (getRegionPool songs region).length) := by
  constructor
  · intro h
    exact startNewGame_emptyPool keys songs region s (by simp [h])
  · intro h
    have hp : ¬ (getRegionPool songs region).isEmpty = true := by
      simpa [List.isEmpty_iff] using h
    rw [startNewGame_eq keys songs region s hp]
    obtain ⟨_, _, f3, _, _⟩ := renderRound_fields
      { s with
        sessionSongs := (shuffle keys (getRegionPool songs region)).take TOTAL_ROUNDS
        sessionIndex := 0
        roundsAnswered := 0
        scoreCorrect := 0
        hasAnswered := false
        hadWrongGuess := false }
    rw [f3]
    show 1 ≤ ((shuffle keys (getRegionPool songs region)).take TOTAL_ROUNDS).length ∧ _
    have hlen : ((shuffle keys (getRegionPool songs region)).take TOTAL_ROUNDS).length
        = min TOTAL_ROUNDS (getRegionPool songs region).length := by
      rw [List.length_take, shuffle_length]
    have hpos : 0 < (getRegionPool songs region).length := List.length_pos.mpr h
    constructor
    · rw [hlen]
      have : 0 < TOTAL_ROUNDS := by decide
      omega
    · exact hlen

theorem startNewGame_no_fallback_witness :
    getRegionPool demoSongs (some "West") ≠ [] ∧
    1 ≤ (startNewGame (fun _ => 0) demoSongs (some "West") initState).sessionSongs.length := by
  have h := (startNewGame_no_fallback (fun _ => 0) demoSongs (some "West") initState).2
  exact ⟨by decide, (h (by decide)).1⟩

-- --------------------------------------------------------------------------
-- Claim C5
-- --------------------------------------------------------------------------

/-- C5: invalid transitions are state-preserving no-ops, not exceptions:
any answer submitted after the current round is resolved leaves the whole
session state unchanged (so a second correct answer never double-counts),
and advancing before the round is answered leaves the whole session state
unchanged. -/
theorem invalid_transition_noop (songObj : Option Song) (s : GameState) :
    (s.hasAnswered = true → handleAnswer songObj s = s) ∧
    (s.hasAnswered = false → goToNextRound s = s) :=
  ⟨fun ha => handleAnswer_resolved songObj s ha,
   fun ha => goToNextRound_open s ha⟩

theorem invalid_transition_noop_witness :
    handleAnswer (some songB) demoAnsweredState = demoAnsweredState ∧
    goToNextRound initState = initState :=
  ⟨(invalid_transition_noop (some songB) demoAnsweredState).1 rfl,
   (invalid_transition_noop (some songB) initState).2 rfl⟩

-- --------------------------------------------------------------------------
-- Claim C6
-- --------------------------------------------------------------------------

/-- C6: the end-of-game message function is pure and total: for each of
the three modes and every score in 0..5 it returns a non-empty string from
the fixed 18-entry table; two calls with identical arguments agree; and
any unrecognized mode string gets the one generic fallback message. -/
theorem endMessage_pure_total (score : Nat) (mode : String)
    (hm : mode = MODES_SPECTRO ∨ mode = MODES_IMAGE ∨ mode = MODES_FACTS)
    (hs : score ≤ 5) :
    endMessage score mode ≠ "" ∧
    endMessage score mode ∈ endMessageTable ∧
    endMessage score mode = endMessage score mode ∧
    (∀ other : String, other ≠ MODES_SPECTRO → other ≠ MODES_IMAGE →
      other ≠ MODES_FACTS → endMessage score other = "Nice work!") := by
  refine ⟨?_, ?_, rfl, ?_⟩
  · rcases hm with h | h | h <;> subst h <;> interval_cases score <;> decide
  · rcases hm with h | h | h <;> subst h <;> interval_cases score <;> decide
  · intro other h1 h2 h3
    simp [endMessage, h1, h2, h3]

theorem endMessage_pure_total_witness :
    endMessage 5 MODES_SPECTRO ≠ "" ∧ endMessage 5 MODES_SPECTRO ∈ endMessageTable := by
  have h := endMessage_pure_total 5 MODES_SPECTRO (Or.inl rfl) (by decide)
  exact ⟨h.1, h.2.1⟩

-- --------------------------------------------------------------------------
-- Claim C7
-- --------------------------------------------------------------------------

/-- C7 (counterexample): there is no reshuffle-and-continue draw queue.
On the one-song "West" pool the session holds a single target; after it is
answered, `goToNextRound` only increments the index (no new round, no
regenerated queue, round flags stay resolved), further answers are
ignored, and `roundsAnswered` is stuck below `TOTAL_ROUNDS`: the game
stalls instead of cycling through the pool again. -/
theorem draw_queue_stalls_cex :
    stallS1.sessionSongs = [songE] ∧
    stallS2.roundsAnswered = 1 ∧
    stallS2.hasAnswered = true ∧
    stallS3 = { stallS2 with sessionIndex := 1 } ∧
    goToNextRound stallS3 = { stallS3 with sessionIndex := 2 } ∧
    handleAnswer (some songE) stallS3 = stallS3 ∧
    stallS3.roundsAnswered < TOTAL_ROUNDS := by
  decide

/-- C7 (amended): target drawing is one-shot, not cyclic: `startNewGame`
fixes the whole draw queue as the first `TOTAL_ROUNDS` entries of a single
shuffled permutation of the pool, and it is never regenerated — once the
index moves past the end of the queue, `goToNextRound` merely increments
the index without starting a round, so a session over a pool with fewer
than `TOTAL_ROUNDS` entries stalls. -/
theorem draw_queue_one_shot (keys : Nat → Nat) (songs : List Song)
    (region : Option String) (s s2 : GameState)
    (hp : ¬ (getRegionPool songs region).isEmpty = true)
    (ha : s2.hasAnswered = true) (hr : s2.roundsAnswered < TOTAL_ROUNDS)
    (hlen : s2.sessionSongs.length ≤ s2.sessionIndex + 1) :
    (startNewGame keys songs region s).sessionSongs
        = (shuffle keys (getRegionPool songs region)).take TOTAL_ROUNDS ∧
    goToNextRound s2 = { s2 with sessionIndex := s2.sessionIndex + 1 } := by
  constructor
  · rw [startNewGame_eq keys songs region s hp]
    exact (renderRound_fields _).2.2.1
  · rw [goToNextRound_eq s2 ha hr, if_neg]
    omega

theorem draw_queue_one_shot_witness :
    goToNextRound stallS2 = { stallS2 with sessionIndex := 1 } := by
  have h := draw_queue_one_shot (fun _ => 0) demoSongs (some "West") initState stallS2
      (by decide) (by decide) (by decide) (by decide)
  exact h.2

-- --------------------------------------------------------------------------
-- Claim C8
-- --------------------------------------------------------------------------

/-- C8 (counterexample): the shuffle is not a uniform permutation
generator.  Modelling `Math.random()` as a uniform draw from a discrete
key space (here two values, the argument is the same for any finite
space), the two-element list keeps its order in 3 of the 4 equally likely
key draws and is swapped in only 1, because ties between equal keys are
broken toward the original order by the stable sort — the permutations are
not equally probable. -/
theorem shuffle_not_uniform_cex :
    ((Finset.univ : Finset (Fin 2 × Fin 2)).filter
        (fun p => shuffle (fun i => if i = 0 then p.1 else p.2) [0, 1]
          = ([0, 1] : List Nat))).card = 3 ∧
    ((Finset.univ : Finset (Fin 2 × Fin 2)).filter
        (fun p => shuffle (fun i => if i = 0 then p.1 else p.2) [0, 1]
          = ([1, 0] : List Nat))).card = 1 ∧
    (3 : Nat) ≠ 1 := by
  refine ⟨by decide, by decide, by decide⟩

/-- C8 (amended): `shuffle` is a sort-by-random-key shuffle, not
Fisher-Yates: it decorates the input with independent random keys and
stable-sorts by them, so equal keys preserve the input order — in
particular an all-ties key draw returns the input unchanged, and over a
uniform discrete key space the identity ordering of a two-element list is
strictly more likely than the swapped one. -/
theorem shuffle_sort_by_keys :
    (∀ (arr : List Nat) (k : Nat), shuffle (fun _ => k) arr = arr) ∧
    ((Finset.univ : Finset (Fin 2 × Fin 2)).filter
        (fun p => shuffle (fun i => if i = 0 then p.1 else p.2) [0, 1]
          = ([1, 0] : List Nat))).card
      < ((Finset.univ : Finset (Fin 2 × Fin 2)).filter
        (fun p => shuffle (fun i => if i = 0 then p.1 else p.2) [0, 1]
          = ([0, 1] : List Nat))).card := by
  exact ⟨fun arr k => shuffle_const_keys k arr, by decide⟩

-- --------------------------------------------------------------------------
-- Claim C2
-- --------------------------------------------------------------------------

theorem handleAnswer_score_le (songObj : Option Song) (s : GameState) :
    s.scoreCorrect ≤ (handleAnswer songObj s).scoreCorrect := by
  by_cases ha : s.hasAnswered = true
  · rw [handleAnswer_resolved songObj s ha]
  · have ha' : s.hasAnswered = false := by simpa using ha
    cases songObj with
    | none => rw [handleAnswer_noObj]
    | some obj =>
      cases hcur : s.currentSong with
      | none => rw [handleAnswer_noCurrent _ _ hcur]
      | some cur =>
        by_cases hname : obj.commonName = cur.commonName
        · rw [handleAnswer_correct_eq s cur obj ha' hcur hname]
          show s.scoreCorrect ≤
            (if s.hadWrongGuess then s.scoreCorrect else s.scoreCorrect + 1)
          split <;> omega
        · rw [handleAnswer_wrong_eq s cur obj ha' hcur hname]
          split <;> exact Nat.le_refl _

theorem goToNextRound_score (s : GameState) :
    (goToNextRound s).scoreCorrect = s.scoreCorrect := by
  by_cases ha : s.hasAnswered = true
  · by_cases hrc : TOTAL_ROUNDS ≤ s.roundsAnswered
    · rw [goToNextRound_done s hrc]
    · rw [goToNextRound_eq s ha (Nat.lt_of_not_le hrc)]
      split
      · exact (renderRound_fields _).2.1
      · rfl
  · rw [goToNextRound_open s (by simpa using ha)]

/-- C2: in every reachable session state the score is bounded by
`TOTAL_ROUNDS` (hence stays in 0..5), neither an answer nor an advance
ever decreases it, and a correct answer that resolves the round adds
exactly 1 when no wrong guess preceded it, while after a wrong guess it
adds nothing but still resolves the round (so the advance is allowed). -/
theorem score_monotone_bounded_increment (songs : List Song) (s : GameState)
    (h : Reachable songs s) :
    s.scoreCorrect ≤ TOTAL_ROUNDS ∧
    (∀ songObj, s.scoreCorrect ≤ (handleAnswer songObj s).scoreCorrect) ∧
    s.scoreCorrect ≤ (goToNextRound s).scoreCorrect ∧
    (∀ obj cur : Song, s.currentSong = some cur → s.hasAnswered = false →
      obj.commonName = cur.commonName →
      (s.hadWrongGuess = false →
        (handleAnswer (some obj) s).scoreCorrect = s.scoreCorrect + 1 ∧
        (handleAnswer (some obj) s).hasAnswered = true) ∧
      (s.hadWrongGuess = true →
        (handleAnswer (some obj) s).scoreCorrect = s.scoreCorrect ∧
        (handleAnswer (some obj) s).hasAnswered = true)) := by
  obtain ⟨h1, h2, _⟩ := reachable_inv h
  refine ⟨Nat.le_trans h1 h2, fun songObj => handleAnswer_score_le songObj s,
    Nat.le_of_eq (goToNextRound_score s).symm, ?_⟩
  intro obj cur hcur ha hname
  rw [handleAnswer_correct_eq s cur obj ha hcur hname]
  exact ⟨fun hw => ⟨by simp [hw], rfl⟩, fun hw => ⟨by simp [hw], rfl⟩⟩

theorem score_monotone_bounded_increment_witness :
    (startNewGame (fun _ => 0) demoSongs none initState).scoreCorrect ≤ TOTAL_ROUNDS ∧
    (handleAnswer (some songA) (startNewGame (fun _ => 0) demoSongs none initState)).scoreCorrect
      = (startNewGame (fun _ => 0) demoSongs none initState).scoreCorrect + 1 := by
  have hreach : Reachable demoSongs (startNewGame (fun _ => 0) demoSongs none initState) :=
    Reachable.step (Event.start (fun _ => 0) none) initState Reachable.init
  have h := score_monotone_bounded_increment demoSongs
      (startNewGame (fun _ => 0) demoSongs none initState) hreach
  exact ⟨h.1, ((h.2.2.2 songA songA (by decide) (by decide) rfl).1 (by decide)).1⟩

-- --------------------------------------------------------------------------
-- Claim C3
-- --------------------------------------------------------------------------

/-- C3: when the active name pool has no duplicates and contains the
target, `buildChoices` returns exactly `min 4 pool.length` options,
containing the target exactly once, without duplicates, all drawn from the
pool; with fewer than 4 names in the pool the whole pool is used. -/
theorem buildChoices_spec (k1 k2 : Nat → Nat) (songs : List Song) (region : Option String)
    (target : String) (hnd : (choicePool songs region).Nodup)
    (hmem : target ∈ choicePool songs region) :
    (buildChoices k1 k2 songs region target).length
        = min 4 (choicePool songs region).length ∧
    (buildChoices k1 k2 songs region target).count target = 1 ∧
    (buildChoices k1 k2 songs region target).Nodup ∧
    (∀ x ∈ buildChoices k1 k2 songs region target, x ∈ choicePool songs region) := by
  have hbc : buildChoices k1 k2 songs region target
      = shuffle k2 (target ::
          ((shuffle k1 ((choicePool songs region).filter (fun n => n ≠ target))).take 3)) :=
    rfl
  set pool := choicePool songs region with hpool
  set others := pool.filter (fun n => n ≠ target) with hothers
  set wrong := (shuffle k1 others).take 3 with hwrong
  have others_sub : others ⊆ pool := (List.filter_sublist pool).subset
  have others_nodup : others.Nodup := hnd.filter _
  have target_not_others : target ∉ others := by
    intro hx
    have := List.of_mem_filter hx
    simp at this
  have others_len : others.length + 1 = pool.length := by
    have he : pool.erase target = others := by
      rw [hnd.erase_eq_filter target, hothers]
      congr 1
      funext n
      by_cases hn : n = target <;> simp [hn]
    have hlen := List.length_erase_add_one hmem
    rw [he] at hlen
    exact hlen
  have wrong_sublist : wrong.Sublist (shuffle k1 others) := List.take_sublist 3 _
  have wrong_nodup : wrong.Nodup :=
    (shuffle_nodup k1 others others_nodup).sublist wrong_sublist
  have wrong_sub_others : ∀ x ∈ wrong, x ∈ others := fun x hx =>
    shuffle_mem k1 others (wrong_sublist.subset hx)
  have target_not_wrong : target ∉ wrong := fun hx =>
    target_not_others (wrong_sub_others _ hx)
  have wrong_len : wrong.length = min 3 others.length := by
    rw [hwrong, List.length_take, shuffle_length]
  have pool_pos : 0 < pool.length := List.length_pos.mpr (List.ne_nil_of_mem hmem)
  refine ⟨?_, ?_, ?_, ?_⟩
  · rw [hbc, shuffle_length]
    simp only [List.length_cons]
    omega
  · rw [hbc, shuffle_count]
    simp only [List.count_cons_self]
    rw [List.count_eq_zero.mpr target_not_wrong]
  · rw [hbc]
    exact shuffle_nodup k2 _ (List.nodup_cons.mpr ⟨target_not_wrong, wrong_nodup⟩)
  · intro x hx
    rw [hbc] at hx
    rcases List.mem_cons.mp (shuffle_mem k2 _ hx) with hx | hx
    · rw [hx]; exact hmem
    · exact others_sub (wrong_sub_others x hx)

theorem buildChoices_spec_witness :
    (choicePool demoSongs none).Nodup ∧
    songA.commonName ∈ choicePool demoSongs none ∧
    (buildChoices (fun _ => 0) (fun _ => 0) demoSongs none songA.commonName).length
      = min 4 (choicePool demoSongs none).length ∧
    (buildChoices (fun _ => 0) (fun _ => 0) demoSongs none songA.commonName).count
      songA.commonName = 1 := by
  have h := buildChoices_spec (fun _ => 0) (fun _ => 0) demoSongs none songA.commonName
      (by decide) (by decide)
  exact ⟨by decide, by decide, h.1, h.2.1⟩

-- --------------------------------------------------------------------------
-- Claim C4
-- --------------------------------------------------------------------------

/-- C4: from any reachable state, an answer leads to the game-complete
state exactly when it is an accepted correct answer to the fifth round;
the completion signal (end overlay) fires exactly then and never earlier;
the complete state is terminal for answers and advances; and
`startNewGame` (with a non-empty pool) leaves it for a fresh non-complete
session. -/
theorem game_complete_characterization (songs : List Song) (s : GameState)
    (h : Reachable songs s) :
    (∀ songObj, GameComplete (handleAnswer songObj s) ↔
      (GameComplete s ∨
        (answerAccepted songObj s ∧ s.roundsAnswered + 1 = TOTAL_ROUNDS))) ∧
    (∀ songObj, ¬ GameComplete s → GameComplete (handleAnswer songObj s) →
      (handleAnswer songObj s).endOverlayVisible = true) ∧
    (∀ songObj, ¬ GameComplete (handleAnswer songObj s) →
      (handleAnswer songObj s).endOverlayVisible = s.endOverlayVisible) ∧
    (GameComplete s → (∀ songObj, handleAnswer songObj s = s) ∧ goToNextRound s = s) ∧
    (∀ keys region, getRegionPool songs region ≠ [] →
      ¬ GameComplete (startNewGame keys songs region s)) := by
  obtain ⟨hi1, hi2, hi3⟩ := reachable_inv h
  have hclass : ∀ songObj,
      (¬ answerAccepted songObj s ∧
        (handleAnswer songObj s).roundsAnswered = s.roundsAnswered ∧
        (handleAnswer songObj s).endOverlayVisible = s.endOverlayVisible) ∨
      (answerAccepted songObj s ∧
        (handleAnswer songObj s).roundsAnswered = s.roundsAnswered + 1 ∧
        (handleAnswer songObj s).endOverlayVisible
          = (if TOTAL_ROUNDS ≤ s.roundsAnswered + 1 then true
             else s.endOverlayVisible)) := by
    intro songObj
    by_cases ha : s.hasAnswered = true
    · left
      rw [handleAnswer_resolved songObj s ha]
      exact ⟨fun hacc => absurd hacc.1 (by simp [ha]), rfl, rfl⟩
    · have ha' : s.hasAnswered = false := by simpa using ha
      cases songObj with
      | none =>
        left
        rw [handleAnswer_noObj]
        refine ⟨?_, rfl, rfl⟩
        rintro ⟨-, cur, obj, -, hobj, -⟩
        exact Option.noConfusion hobj
      | some obj =>
        cases hcur : s.currentSong with
        | none =>
          left
          rw [handleAnswer_noCurrent _ _ hcur]
          refine ⟨?_, rfl, rfl⟩
          rintro ⟨-, cur, obj2, hcur2, -, -⟩
          rw [hcur] at hcur2
          exact Option.noConfusion hcur2
        | some cur =>
          by_cases hname : obj.commonName = cur.commonName
          · right
            refine ⟨⟨ha', cur, obj, hcur, rfl, hname⟩, ?_, ?_⟩
            · rw [handleAnswer_correct_eq s cur obj ha' hcur hname]
            · rw [handleAnswer_correct_eq s cur obj ha' hcur hname]
          · left
            rw [handleAnswer_wrong_eq s cur obj ha' hcur hname]
            refine ⟨?_, ?_, ?_⟩
            · rintro ⟨-, cur2, obj2, hcur2, hobj2, hname2⟩
              rw [hcur] at hcur2
              injection hcur2 with hc
              injection hobj2 with ho
              rw [← ho, ← hc] at hname2
              exact hname hname2
            · split <;> rfl
            · split <;> rfl
  refine ⟨?_, ?_, ?_, ?_, ?_⟩
  · intro songObj
    rcases hclass songObj with ⟨hna, hr, -⟩ | ⟨hacc, hr, -⟩
    · simp only [GameComplete, hr]
      constructor
      · exact fun hc => Or.inl hc
      · rintro (hc | ⟨hacc, -⟩)
        · exact hc
        · exact absurd hacc hna
    · have hopen : s.roundsAnswered < TOTAL_ROUNDS := by
        rcases Nat.lt_or_ge s.roundsAnswered TOTAL_ROUNDS with hlt | hge
        · exact hlt
        · rw [hacc.1] at hi3
          exact absurd (hi3 hge) (by simp)
      simp only [GameComplete, hr]
      constructor
      · intro hc
        exact Or.inr ⟨hacc, by omega⟩
      · rintro (hc | ⟨-, hc⟩)
        · omega
        · omega
  · intro songObj hpre hpost
    rcases hclass songObj with ⟨-, hr, -⟩ | ⟨-, hr, hov⟩
    · simp only [GameComplete, hr] at hpost
      exact absurd hpost hpre
    · simp only [GameComplete, hr] at hpost
      rw [hov, if_pos hpost]
  · intro songObj hnpost
    rcases hclass songObj with ⟨-, -, hov⟩ | ⟨-, hr, hov⟩
    · exact hov
    · simp only [GameComplete, hr] at hnpost
      rw [hov, if_neg hnpost]
  · intro hc
    have ha : s.hasAnswered = true := hi3 hc
    exact ⟨fun songObj => handleAnswer_resolved songObj s ha, goToNextRound_done s hc⟩
  · intro keys region hne
    have hp : ¬ (getRegionPool songs region).isEmpty = true := by
      simpa [List.isEmpty_iff] using hne
    rw [startNewGame_eq keys songs region s hp]
    obtain ⟨f1, -, -, -, -⟩ := renderRound_fields
      { s with
        sessionSongs := (shuffle keys (getRegionPool songs region)).take TOTAL_ROUNDS
        sessionIndex := 0
        roundsAnswered := 0
        scoreCorrect := 0
        hasAnswered := false
        hadWrongGuess := false }
    simp only [GameComplete, f1]
    decide

theorem game_complete_characterization_witness :
    ¬ GameComplete (startNewGame (fun _ => 0) demoSongs none initState) := by
  have h := game_complete_characterization demoSongs initState Reachable.init
  exact h.2.2.2.2 (fun _ => 0) none (by decide)

-- --------------------------------------------------------------------------
-- Claim C9
-- --------------------------------------------------------------------------

/-- C9: `shuffle` always returns a permutation of its input (same length,
same multiset of elements); consequently, for a duplicate-free region
pool, the session songs are distinct entries of the pool, and every
generated answer option comes from the name pool (or is the requested
target itself). -/
theorem shuffle_permutation_consequences (keys k1 k2 : Nat → Nat) (arr : List Song)
    (songs : List Song) (region : Option String) (s : GameState) (target : String) :
    (shuffle keys arr).Perm arr ∧
    (shuffle keys arr).length = arr.length ∧
    (∀ x : Song, (shuffle keys arr).count x = arr.count x) ∧
    ((getRegionPool songs region).Nodup → getRegionPool songs region ≠ [] →
      (startNewGame keys songs region s).sessionSongs.Nodup ∧
      ∀ x ∈ (startNewGame keys songs region s).sessionSongs,
        x ∈ getRegionPool songs region) ∧
    (∀ x ∈ buildChoices k1 k2 songs region target,
      x ∈ choicePool songs region ∨ x = target) := by
  refine ⟨shuffle_perm keys arr, shuffle_length keys arr,
    fun x => shuffle_count keys arr x, ?_, ?_⟩
  · intro hnd hne
    have hp : ¬ (getRegionPool songs region).isEmpty = true := by
      simpa [List.isEmpty_iff] using hne
    rw [startNewGame_eq keys songs region s hp]
    obtain ⟨-, -, f3, -, -⟩ := renderRound_fields
      { s with
        sessionSongs := (shuffle keys (getRegionPool songs region)).take TOTAL_ROUNDS
        sessionIndex := 0
        roundsAnswered := 0
        scoreCorrect := 0
        hasAnswered := false
        hadWrongGuess := false }
    rw [f3]
    constructor
    · exact (shuffle_nodup keys _ hnd).sublist (List.take_sublist _ _)
    · intro x hx
      exact shuffle_mem keys _ ((List.take_sublist _ _).subset hx)
  · intro x hx
    have hbc : buildChoices k1 k2 songs region target
        = shuffle k2 (target ::
            ((shuffle k1 ((choicePool songs region).filter (fun n => n ≠ target))).take 3)) :=
      rfl
    rw [hbc] at hx
    rcases List.mem_cons.mp (shuffle_mem k2 _ hx) with hx | hx
    · exact Or.inr hx
    · left
      have h2 := (List.take_sublist _ _).subset hx
      have h3 := shuffle_mem k1 _ h2
      exact (List.filter_sublist _).subset h3

theorem shuffle_permutation_consequences_witness :
    (getRegionPool demoSongs none).Nodup ∧
    getRegionPool demoSongs none ≠ [] ∧
    (startNewGame (fun _ => 0) demoSongs none initState).sessionSongs.Nodup := by
  have h := shuffle_permutation_consequences (fun _ => 0) (fun _ => 0) (fun _ => 0)
      demoSongs demoSongs none initState ""
  exact ⟨by decide, by decide, (h.2.2.2.1 (by decide) (by decide)).1⟩

-- --------------------------------------------------------------------------
-- Claim C10
-- --------------------------------------------------------------------------

/-- C10: `redactFact` is total and length-preserving: a missing song or a
song without a fact yields the empty string, and otherwise the redacted
text has exactly the length of the original fact, because every match is
replaced character-for-character by bullets. -/
theorem redactFact_total_length (song : Option Song) :
    (song = none → redactFact song = "") ∧
    (∀ sg : Song, song = some sg → sg.fact = "" → redactFact song = "") ∧
    (∀ sg : Song, song = some sg → (redactFact song).length = sg.fact.length) := by
  refine ⟨?_, ?_, ?_⟩
  · intro h
    rw [h]
    rfl
  · intro sg h hf
    rw [h]
    simp [redactFact, hf]
  · intro sg h
    rw [h]
    by_cases hf : sg.fact = ""
    · simp [redactFact, hf]
    · show (redactFact (some sg)).length = sg.fact.length
      simp only [redactFact, if_neg hf]
      split
      · rfl
      · show (String.mk (replaceMatches _ sg.fact.toList)).length = sg.fact.length
        show (replaceMatches _ sg.fact.toList).length = sg.fact.length
        rw [replaceMatches_length]
        rfl

theorem redactFact_total_length_witness :
    (redactFact (some songA)).length = songA.fact.length ∧
    redactFact none = "" := by
  have h := redactFact_total_length (some songA)
  have h0 := redactFact_total_length none
  exact ⟨h.2.2 songA rfl, h0.1 rfl⟩

end InsectGame
